import Mathlib

/-!
Verification development for the live-synchronization engine of the `omd`
markdown previewer (src/main.rs).

The Rust program renders a markdown source to HTML, keeps the rendered
artifact in an `Arc<RwLock<String>>` shared render cache, watches the source
file for modifications (re-rendering and committing on each change, then
sending a unit signal over a `tokio::sync::broadcast` channel of capacity
100), and serves the artifact over HTTP together with a server-sent-events
stream that emits one "reload" data event per received signal.

The development embeds the relevant functions shallowly:
  * pure functions of `main.rs` become Lean functions
    (`render_markdown_to_html`, `build_full_html`, `serve_html`,
    the per-cycle body of `watch_markdown_file`, `event_stream`);
  * the `tokio::sync::broadcast` receiver semantics (capacity 100,
    drop-oldest on overflow, `Lagged` error reported to a receiver that
    fell behind) is embedded as arithmetic on publish/consume counters;
  * the concurrent behaviour of the `RwLock`-protected cache together with
    the notifier send performed inside the write critical section is
    embedded as a small-step transition system over an arbitrary number of
    writer tasks (one per detected change, cf. the `tokio::spawn` in
    `watch_markdown_file`) and reader tasks (one per `serve_html` call).

External collaborators (the pulldown-cmark parser, the CSS/font byte blobs,
the filesystem, the clipboard) are taken as parameters, matching the spec,
which treats them as inert inputs.
-/

namespace Omd

/-! ## Renderer (`render_markdown_to_html`)

The pulldown-cmark parser and `html::push_html` are external collaborators:
they are passed in as functions.  The event-mapping closure of
`render_markdown_to_html` (soft breaks and math events rewritten to raw
HTML events) is embedded faithfully. -/

/-- Markdown events, as consumed by the mapping closure inside
`render_markdown_to_html`: the three constructors the closure rewrites,
the raw-HTML event it produces, and an opaque constructor for every other
pulldown-cmark event (passed through unchanged). -/
inductive MdEvent
  | softBreak
  | inlineMath (s : String)
  | displayMath (s : String)
  | htmlEv (s : String)
  | otherEv (tag : Nat) (payload : String)
deriving DecidableEq

/-- The event-mapping closure of `render_markdown_to_html`. -/
def mapMdEvent : MdEvent → MdEvent
  | .softBreak => .htmlEv "<br>"
  | .inlineMath s =>
      .htmlEv ("<span class=\"math math-inline\">$" ++ s ++ "$</span>")
  | .displayMath s =>
      .htmlEv ("<span class=\"math math-display\">$$" ++ s ++ "$$</span>")
  | e => e

/-- `render_markdown_to_html`: parse the input, map every event through the
closure above, and push the mapped events to HTML.  `parse` stands for
`pulldown_cmark::Parser::new_ext` (with `Options::all()`) and `pushHtml`
for `pulldown_cmark::html::push_html`; both are pure external
collaborators. -/
def renderMarkdownToHtml (parse : String → List MdEvent)
    (pushHtml : List MdEvent → String) (markdownInput : String) : String :=
  pushHtml ((parse markdownInput).map mapMdEvent)

/-! ## Template assembly (`build_full_html`, `read_fonts`) -/

/-- The `Fonts` struct: base64-encoded font and favicon blobs
(`read_fonts` embeds them with `include_bytes!`; here they are opaque
strings). -/
structure Fonts where
  fontRegular : String
  fontMedium : String
  fontLight : String
  favicon : String

/-- The live-reload client script of `build_full_html` (used when
`enable_reload` is true). -/
def reloadScriptText : String :=
  "\n        <script>\n            var evtSource = new EventSource(\"/events\");\n            evtSource.onmessage = function(e) \x7b\n                if (e.data === \"reload\") \x7b\n                    location.reload();\n                \x7d\n            \x7d;\n        </script>\n        "

/-- Template text of `build_full_html` before the favicon placeholder. -/
def tmplHead : String :=
  "\n<!DOCTYPE html>\n<html lang=\"en\">\n<head>\n    <meta charset=\"UTF-8\">\n    <meta name=\"viewport\" content=\"width=device-width, initial-scale=1.0\">\n    <link rel=\"icon\" href=\"data:image/x-icon;base64,"

/-- Template text between the favicon and the first font placeholder
(footnote script, MathJax setup, first `@font-face` opening). -/
def tmplScripts : String :=
  "\">\n    <script>\n        document.addEventListener(\x27DOMContentLoaded\x27, function() \x7b\n            const footnotes = document.querySelectorAll(\x27.footnote-definition\x27);\n            if (footnotes.length > 0) \x7b\n                const container = document.createElement(\x27div\x27);\n                container.id = \x27footnote-container\x27;\n                footnotes.forEach(footnote => container.appendChild(footnote));\n                document.body.appendChild(container);\n            \x7d\n        \x7d);\n    </script>\n    <script id=\"MathJax-script\" async src=\"https://cdn.jsdelivr.net/npm/mathjax@3/es5/tex-mml-chtml.js\"></script>\n    <script>\n    window.MathJax = \x7b\n      tex: \x7b\n        inlineMath: [[\x27$\x27, \x27$\x27], [\x27\\\\(\x27, \x27\\\\)\x27]]\n      \x7d\n    \x7d;\n    </script>\n    <style>\n        @font-face \x7b\n            font-family: \x27Oswald\x27;\n            src: url(data:font/truetype;charset=utf-8;base64,"

/-- Template text between the regular and the medium font placeholders. -/
def tmplFont400 : String :=
  ") format(\x27truetype\x27);\n            font-weight: 400;\n            font-style: normal;\n        \x7d\n        @font-face \x7b\n            font-family: \x27Oswald\x27;\n            src: url(data:font/truetype;charset=utf-8;base64,"

/-- Template text between the medium and the light font placeholders. -/
def tmplFont700 : String :=
  ") format(\x27truetype\x27);\n            font-weight: 700;\n            font-style: normal;\n        \x7d\n        @font-face \x7b\n            font-family: \x27Oswald\x27;\n            src: url(data:font/truetype;charset=utf-8;base64,"

/-- Template text between the light font and the style placeholders. -/
def tmplFont300 : String :=
  ") format(\x27truetype\x27);\n            font-weight: 300;\n            font-style: normal;\n        \x7d\n        "

/-- Template text between the style and the title placeholders. -/
def tmplTitleOpen : String := "\n    </style>\n    <title>\n        "

/-- Template text between the title and the body placeholders. -/
def tmplBodyOpen : String := "\n    </title>\n</head>\n<body>\n    "

/-- Template text between the rendered HTML and the reload script. -/
def tmplBetween : String := "\n    "

/-- Closing template text. -/
def tmplClose : String := "\n</body>\n</html>\n"

/-- `build_full_html`: format the page template with the favicon, the three
font blobs, the stylesheet, the file name, the rendered markdown and (for
server mode) the live-reload script. -/
def buildFullHtml (fileName htmlOutput style : String) (fonts : Fonts)
    (enableReload : Bool) : String :=
  let reloadScript := if enableReload then reloadScriptText else ""
  tmplHead ++ fonts.favicon ++ tmplScripts ++ fonts.fontRegular ++
    tmplFont400 ++ fonts.fontMedium ++ tmplFont700 ++ fonts.fontLight ++
    tmplFont300 ++ style ++ tmplTitleOpen ++ fileName ++ tmplBodyOpen ++
    htmlOutput ++ tmplBetween ++ reloadScript ++ tmplClose

/-! ## Server state and the artifact-fetch handler
(`AppState`, `serve_html`, `run_server_mode`) -/

/-- `AppState` as observed by one request handler: `htmlContent` is the
value of the `RwLock`-protected artifact at the moment the read guard is
held (the concurrent protocol around that lock is verified separately in
the transition-system section below); the remaining fields are the
immutable ones. -/
structure AppState where
  htmlContent : String
  cssContent : String
  fonts : Fonts
  filePath : String
  fileName : String

/-- `serve_html`: read the current artifact and answer with the full page
(reload script enabled).  The Rust handler returns
`Ok(warp::reply::html(full_html))` unconditionally; the `Except` error
component (warp rejection) is never produced. -/
def serveHtml (s : AppState) : Except Unit String :=
  .ok (buildFullHtml s.fileName s.htmlContent s.cssContent s.fonts true)

/-- `PathBuf::file_name` for the paths produced here: the last `/`
component. -/
def fileNameOf (p : String) : String := (p.splitOn "/").getLastD p

/-- The initialization part of `run_server_mode`, up to the construction of
`AppState`: pick the input (clipboard content under `--clipboard`, else the
file argument, read via `readFile`), render it, and build the state.  A
`.error` result models the early `process::exit(1)` / `?`-return paths that
abort before the server starts. -/
def runServerModeInit (render : String → String) (clipboard : Bool)
    (clipContent : String) (fileArg : Option String)
    (readFile : String → Except String String) (style : String)
    (fonts : Fonts) : Except String AppState :=
  if clipboard then
    .ok { htmlContent := render clipContent, cssContent := style,
          fonts := fonts, filePath := "Clipboard", fileName := "Clipboard" }
  else
    match fileArg with
    | none => .error "Error: No input file specified in server mode."
    | some p =>
      match readFile p with
      | .error e => .error e
      | .ok markdownInput =>
        .ok { htmlContent := render markdownInput, cssContent := style,
              fonts := fonts, filePath := p, fileName := fileNameOf p }

/-! ## The watcher (`watch_markdown_file`)

The watcher receives results on an mpsc channel fed by the notify crate.
Each loop iteration processes one `Result<Event, Error>`; on a `Modify`
event it reads the file (an `Except String String` environment input) and,
on success, re-renders and commits (the spawned commit task's interleaving
with readers is verified in the transition-system section; here the loop is
verified against its sequential linearization).  Log strings are the
`println!` / `eprintln!` messages of the source. -/

/-- The notify event kinds the loop distinguishes: `Modify` triggers a
re-render, every other kind is ignored. -/
inductive FsEventKind
  | modify
  | other
deriving DecidableEq

/-- One iteration of the `for res in rx_notify` loop of
`watch_markdown_file`: given the current artifact `st`, the received
watch result `ev` and the outcome `readRes` that `std::fs::read_to_string`
would produce, return the artifact afterwards, whether a ChangeSignal is
published, and the log lines printed. -/
def watchCycle (render : String → String) (st : String)
    (ev : Except String FsEventKind) (readRes : Except String String) :
    String × Bool × List String :=
  match ev with
  | .ok .modify =>
    match readRes with
    | .ok markdownInput =>
        (render markdownInput, true, ["File changed, updating content..."])
    | .error e =>
        (st, false,
         ["File changed, updating content...", "Error reading file: " ++ e])
  | .ok .other => (st, false, [])
  | .error e => (st, false, ["watch error: " ++ e])

/-- The whole `for res in rx_notify` loop over a finite schedule of
received results: final artifact, number of ChangeSignals published, and
accumulated log. -/
def watchLoop (render : String → String) :
    String → List (Except String FsEventKind × Except String String) →
    String × Nat × List String
  | st, [] => (st, 0, [])
  | st, (ev, rd) :: cs =>
    match watchCycle render st ev rd with
    | (st1, sig, lg) =>
      match watchLoop render st1 cs with
      | (stf, n, lgs) => (stf, (if sig then 1 else 0) + n, lg ++ lgs)

/-- Environment for one run of `watch_markdown_file`: the outcome of
constructing the platform watcher (`PollWatcher::new` on Linux,
`RecommendedWatcher::new` elsewhere), the outcome of registering the watch
on the target path, and the schedule of received watch results paired with
the file-read outcomes. -/
structure WatchEnv where
  watcherNew : Except String Unit
  watchReg : Except String Unit
  cycles : List (Except String FsEventKind × Except String String)

/-- Result of `watch_markdown_file`: `panicked` models an `unwrap()` on an
`Err` (the watcher task panics, nothing is printed by the function);
`returned` carries the final artifact, the number of ChangeSignals
published, and the log. -/
inductive WatchResult
  | panicked
  | returned (finalHtml : String) (signals : Nat) (logs : List String)
deriving DecidableEq

/-- `watch_markdown_file`: return immediately when the path renders as
"Clipboard"; otherwise construct the watcher and register the watch (each
via `unwrap()`, hence `panicked` on an error), then run the receive loop. -/
def watchMarkdownFile (render : String → String) (pathStr : String)
    (st0 : String) (env : WatchEnv) : WatchResult :=
  if pathStr = "Clipboard" then
    .returned st0 0 []
  else
    match env.watcherNew with
    | .error _ => .panicked
    | .ok _ =>
      match env.watchReg with
      | .error _ => .panicked
      | .ok _ =>
        match watchLoop render st0 env.cycles with
        | (stf, n, logs) => .returned stf n logs

/-! ## The event stream (`event_stream`, `sse_handler`) and the
broadcast-channel receiver semantics -/

/-- `broadcast::Receiver::recv` error cases. -/
inductive RecvErr
  | lagged (skipped : Nat)
  | closed
deriving DecidableEq

/-- One item on the SSE wire: a data event (`sse::Event::default().data(d)`)
or a protocol-level comment (the keep-alive pings inserted by
`warp::sse::keep_alive()`). -/
inductive SseItem
  | dataEvent (d : String)
  | comment (c : String)
deriving DecidableEq

/-- `event_stream`: `while let Ok(_) = rx.recv().await` — one
`data("reload")` event per successfully received signal; the loop (and
with it the stream) ends at the first receive error. -/
def eventStream : List (Except RecvErr Unit) → List SseItem
  | [] => []
  | .ok _ :: rest => .dataEvent "reload" :: eventStream rest
  | .error _ :: _ => []

/-- Length of the longest prefix of successful receives (the number of
signals the loop actually consumes). -/
def okPrefixLen : List (Except RecvErr Unit) → Nat
  | [] => 0
  | .ok _ :: rest => okPrefixLen rest + 1
  | .error _ :: _ => 0

/-- Whether a wire item is a data event (surfaced to `onmessage`). -/
def SseItem.isData : SseItem → Bool
  | .dataEvent _ => true
  | .comment _ => false

/-- The client behaviour of the reload script in `build_full_html`:
`onmessage` fires only for data events, and the page reloads exactly when
the data is the literal token "reload"; comments never reach the script. -/
def triggersReload : SseItem → Bool
  | .dataEvent d => d == "reload"
  | .comment _ => false

/-- `tokio::sync::broadcast` channel capacity used by `run_server_mode`:
`broadcast::channel::<()>(100)`. -/
def capacity : Nat := 100

/-- `broadcast::Receiver::recv` for a receiver at position `c` when `P`
signals have been published and `c < P` (the non-blocking case): if the
receiver is within `capacity` of the head it receives the next signal and
advances; otherwise the channel has dropped the oldest pending signals and
`recv` reports `Lagged` with the number of skipped (oldest) signals. -/
def recvBurst (P c : Nat) : Except Nat Nat :=
  if capacity < P - c then .error (P - capacity - c) else .ok (c + 1)

/-- The `event_stream` loop run against the channel after a burst of `P`
publishes, starting at position `c` (with fuel for termination): while
signals are pending, `recv`; yield one "reload" data event per `Ok` and
stop at the first `Err` (the `while let Ok` pattern); stop polling once
the burst is drained. -/
def eventLoopBurst (P : Nat) : Nat → Nat → List SseItem
  | 0, _ => []
  | fuel + 1, c =>
    if c < P then
      match recvBurst P c with
      | .ok c1 => .dataEvent "reload" :: eventLoopBurst P fuel c1
      | .error _ => []
    else []

/-! ## The shared render cache under concurrency

`run_server_mode` shares `html_content : Arc<RwLock<String>>` between the
watcher and the HTTP handlers.  On every successful re-render the watcher
spawns a commit task (`tokio::spawn` in `watch_markdown_file`) running

    let mut html_content = app_state.html_content.write().await;
    *html_content = html_output;
    app_state.notifier.send(());
    // write guard dropped here

and every `serve_html` call runs

    let html_content = app_state.html_content.read().await;
    ... build_full_html(..., &html_content, ...) ...
    // read guard dropped here

This is embedded as a small-step transition system.  Writer task `i`
(one per detected change, any number of them) steps through
acquire-write → store artifact → send signal → release; reader task `j`
(one per request) steps through acquire-read → read → release.  The
`RwLock` is embedded by its acquisition guards: a write lock needs no
holder of either kind, a read lock needs no write holder.

Replacing the `String` behind the lock is a multi-word memory write, so
the stored artifact is embedded as TWO memory words (`part1`, `part2`),
each stamped with the version (commit sequence number) of the update that
wrote it: an unserialized interleaving could observe the two words from
different updates, which is exactly the "mixture" Invariant I1 excludes.
`committed` counts fully committed updates; `sigLog` records the versions
current at each notifier send (newest first); `sigCount i` counts the
sends performed by writer task `i`. -/

/-- Program counter of one writer (commit) task. -/
inductive WPC
  | idle
  | locked
  | wrote1
  | wrote2
  | signaled
  | finished
deriving DecidableEq

/-- Whether a writer task currently holds the write lock. -/
def WPC.holds : WPC → Bool
  | .idle => false
  | .finished => false
  | _ => true

/-- Whether a writer task has performed its notifier send. -/
def WPC.sigDone : WPC → Bool
  | .signaled => true
  | .finished => true
  | _ => false

/-- Program counter of one reader (request) task, carrying the observed
pair of artifact words once read. -/
inductive RPC
  | ridle
  | rheld (obs : Option (Nat × Nat))
  | rdone (obs : Nat × Nat)
deriving DecidableEq

/-- Whether a reader task currently holds the read lock. -/
def RPC.held : RPC → Bool
  | .rheld _ => true
  | _ => false

/-- The artifact words a reader has observed, if any. -/
def RPC.obsOf : RPC → Option (Nat × Nat)
  | .rheld (some o) => some o
  | .rdone o => some o
  | _ => none

/-- Global state of the cache protocol. -/
structure Sys where
  part1 : Nat
  part2 : Nat
  committed : Nat
  ws : Nat → WPC
  rs : Nat → RPC
  sigLog : List Nat
  sigCount : Nat → Nat

/-- Initial state: artifact words at version 0 (the initial render), no
lock held, no signal sent. -/
def init : Sys :=
  { part1 := 0, part2 := 0, committed := 0,
    ws := fun _ => WPC.idle, rs := fun _ => RPC.ridle,
    sigLog := [], sigCount := fun _ => 0 }

/-- One interleaving step of the protocol. -/
inductive Step : Sys → Sys → Prop
  | wAcquire (s : Sys) (i : Nat) (h : s.ws i = WPC.idle)
      (hw : ∀ k, (s.ws k).holds = false) (hr : ∀ j, (s.rs j).held = false) :
      Step s { s with ws := Function.update s.ws i WPC.locked }
  | wWrite1 (s : Sys) (i : Nat) (h : s.ws i = WPC.locked) :
      Step s { s with part1 := s.committed + 1,
                      ws := Function.update s.ws i WPC.wrote1 }
  | wWrite2 (s : Sys) (i : Nat) (h : s.ws i = WPC.wrote1) :
      Step s { s with part2 := s.committed + 1, committed := s.committed + 1,
                      ws := Function.update s.ws i WPC.wrote2 }
  | wPublish (s : Sys) (i : Nat) (h : s.ws i = WPC.wrote2) :
      Step s { s with sigLog := s.committed :: s.sigLog,
                      sigCount := Function.update s.sigCount i (s.sigCount i + 1),
                      ws := Function.update s.ws i WPC.signaled }
  | wRelease (s : Sys) (i : Nat) (h : s.ws i = WPC.signaled) :
      Step s { s with ws := Function.update s.ws i WPC.finished }
  | rAcquire (s : Sys) (j : Nat) (h : s.rs j = RPC.ridle)
      (hw : ∀ k, (s.ws k).holds = false) :
      Step s { s with rs := Function.update s.rs j (RPC.rheld none) }
  | rRead (s : Sys) (j : Nat) (h : s.rs j = RPC.rheld none) :
      Step s { s with rs := Function.update s.rs j
                             (RPC.rheld (some (s.part1, s.part2))) }
  | rRelease (s : Sys) (j : Nat) (o : Nat × Nat)
      (h : s.rs j = RPC.rheld (some o)) :
      Step s { s with rs := Function.update s.rs j (RPC.rdone o) }

/-- Reachability from the initial state. -/
def Reach (s : Sys) : Prop := Relation.ReflTransGen Step init s

/-- The protocol invariant. -/
structure Inv (s : Sys) : Prop where
  mutex : ∀ i k, (s.ws i).holds = true → (s.ws k).holds = true → i = k
  rw : ∀ i, (s.ws i).holds = true → ∀ j, (s.rs j).held = false
  p2 : s.part2 = s.committed
  p1idle : (∀ i, s.ws i ≠ WPC.wrote1) → s.part1 = s.committed
  p1w : ∀ i, s.ws i = WPC.wrote1 → s.part1 = s.committed + 1
  obs : ∀ j a b, (s.rs j).obsOf = some (a, b) → a = b ∧ a ≤ s.committed
  sig : ∀ v ∈ s.sigLog, v ≤ s.committed
  cnt : ∀ i, s.sigCount i = if (s.ws i).sigDone = true then 1 else 0

/-- Tracking predicate for a reader task `j` after version `v` has been
published: before its read the committed version is already at least `v`;
from its read on, the first observed word is at least `v`. -/
def tracksFrom (v j : Nat) (t : Sys) : Prop :=
  ((t.rs j = RPC.ridle ∨ t.rs j = RPC.rheld none) ∧ v ≤ t.committed) ∨
  (∃ a b, (t.rs j = RPC.rheld (some (a, b)) ∨ t.rs j = RPC.rdone (a, b)) ∧
    v ≤ a)

/-! ### A concrete execution of the cache protocol

Writer task 0 performs one full commit-publish cycle, then reader task 0
performs one full fetch; used to instantiate the theorems below. -/

def ex1 : Sys := { init with ws := Function.update init.ws 0 WPC.locked }

def ex2 : Sys :=
  { ex1 with part1 := ex1.committed + 1,
             ws := Function.update ex1.ws 0 WPC.wrote1 }

def ex3 : Sys :=
  { ex2 with part2 := ex2.committed + 1, committed := ex2.committed + 1,
             ws := Function.update ex2.ws 0 WPC.wrote2 }

def ex4 : Sys :=
  { ex3 with sigLog := ex3.committed :: ex3.sigLog,
             sigCount := Function.update ex3.sigCount 0 (ex3.sigCount 0 + 1),
             ws := Function.update ex3.ws 0 WPC.signaled }

def ex5 : Sys := { ex4 with ws := Function.update ex4.ws 0 WPC.finished }

def ex6 : Sys := { ex5 with rs := Function.update ex5.rs 0 (RPC.rheld none) }

def ex7 : Sys :=
  { ex6 with rs := Function.update ex6.rs 0
               (RPC.rheld (some (ex6.part1, ex6.part2))) }

def ex8 : Sys :=
  { ex7 with rs := Function.update ex7.rs 0
               (RPC.rdone (ex6.part1, ex6.part2)) }

/-- Sample font blobs used to instantiate theorems at concrete inputs. -/
def sampleFonts : Fonts :=
  { fontRegular := "r", fontMedium := "m", fontLight := "l", favicon := "f" }

theorem holds_iff (p : WPC) :
    p.holds = true ↔ p = WPC.locked ∨ p = WPC.wrote1 ∨ p = WPC.wrote2 ∨
      p = WPC.signaled := by
  cases p <;> simp [WPC.holds]

theorem inv_init : Inv init := by
  refine ⟨?_, ?_, rfl, fun _ => rfl, ?_, ?_, ?_, ?_⟩ <;>
    simp [init, WPC.holds, RPC.obsOf, WPC.sigDone]

theorem inv_step {s t : Sys} (h : Inv s) (hst : Step s t) : Inv t := by
  cases hst with
  | wAcquire i hid hw hr =>
    refine ⟨?_, ?_, h.p2, ?_, ?_, h.obs, h.sig, ?_⟩
    · intro a b ha hb
      dsimp only at ha hb
      by_cases hai : a = i
      · by_cases hbi : b = i
        · rw [hai, hbi]
        · rw [Function.update_noteq hbi] at hb
          exact absurd hb (by simp [hw b])
      · rw [Function.update_noteq hai] at ha
        exact absurd ha (by simp [hw a])
    · intro a _ j
      exact hr j
    · intro _
      refine h.p1idle fun k hk => ?_
      have hwk := hw k
      rw [hk] at hwk
      simp [WPC.holds] at hwk
    · intro k hk
      dsimp only at hk ⊢
      by_cases hki : k = i
      · rw [hki, Function.update_same] at hk
        cases hk
      · rw [Function.update_noteq hki] at hk
        have hwk := hw k
        rw [hk] at hwk
        simp [WPC.holds] at hwk
    · intro k
      dsimp only
      by_cases hki : k = i
      · have hc := h.cnt i
        rw [hid] at hc
        rw [hki, Function.update_same]
        simpa [WPC.sigDone] using hc
      · rw [Function.update_noteq hki]
        exact h.cnt k
  | wWrite1 i hid =>
    have hih : (s.ws i).holds = true := by rw [hid]; rfl
    refine ⟨?_, ?_, h.p2, ?_, ?_, h.obs, h.sig, ?_⟩
    · intro a b ha hb
      dsimp only at ha hb
      by_cases hai : a = i
      · by_cases hbi : b = i
        · rw [hai, hbi]
        · rw [Function.update_noteq hbi] at hb
          exact absurd (h.mutex b i hb hih) hbi
      · rw [Function.update_noteq hai] at ha
        exact absurd (h.mutex a i ha hih) hai
    · intro a _ j
      exact h.rw i hih j
    · intro hno
      exact absurd (show (Function.update s.ws i WPC.wrote1) i = WPC.wrote1 by
        rw [Function.update_same]) (hno i)
    · intro k _
      rfl
    · intro k
      dsimp only
      by_cases hki : k = i
      · have hc := h.cnt i
        rw [hid] at hc
        rw [hki, Function.update_same]
        simpa [WPC.sigDone] using hc
      · rw [Function.update_noteq hki]
        exact h.cnt k
  | wWrite2 i hid =>
    have hih : (s.ws i).holds = true := by rw [hid]; rfl
    refine ⟨?_, ?_, rfl, ?_, ?_, ?_, ?_, ?_⟩
    · intro a b ha hb
      dsimp only at ha hb
      by_cases hai : a = i
      · by_cases hbi : b = i
        · rw [hai, hbi]
        · rw [Function.update_noteq hbi] at hb
          exact absurd (h.mutex b i hb hih) hbi
      · rw [Function.update_noteq hai] at ha
        exact absurd (h.mutex a i ha hih) hai
    · intro a _ j
      exact h.rw i hih j
    · intro _
      exact h.p1w i hid
    · intro k hk
      dsimp only at hk
      by_cases hki : k = i
      · rw [hki, Function.update_same] at hk
        cases hk
      · rw [Function.update_noteq hki] at hk
        exact absurd (h.mutex k i (by rw [hk]; rfl) hih) hki
    · intro j a b hob
      obtain ⟨hab, hle⟩ := h.obs j a b hob
      exact ⟨hab, Nat.le_succ_of_le hle⟩
    · intro v hv
      exact Nat.le_succ_of_le (h.sig v hv)
    · intro k
      dsimp only
      by_cases hki : k = i
      · have hc := h.cnt i
        rw [hid] at hc
        rw [hki, Function.update_same]
        simpa [WPC.sigDone] using hc
      · rw [Function.update_noteq hki]
        exact h.cnt k
  | wPublish i hid =>
    have hih : (s.ws i).holds = true := by rw [hid]; rfl
    refine ⟨?_, ?_, h.p2, ?_, ?_, h.obs, ?_, ?_⟩
    · intro a b ha hb
      dsimp only at ha hb
      by_cases hai : a = i
      · by_cases hbi : b = i
        · rw [hai, hbi]
        · rw [Function.update_noteq hbi] at hb
          exact absurd (h.mutex b i hb hih) hbi
      · rw [Function.update_noteq hai] at ha
        exact absurd (h.mutex a i ha hih) hai
    · intro a _ j
      exact h.rw i hih j
    · intro hno
      refine h.p1idle fun k hk => ?_
      by_cases hki : k = i
      · rw [hki] at hk
        rw [hid] at hk
        cases hk
      · exact (hno k) (by dsimp only; rw [Function.update_noteq hki]; exact hk)
    · intro k hk
      dsimp only at hk
      by_cases hki : k = i
      · rw [hki, Function.update_same] at hk
        cases hk
      · rw [Function.update_noteq hki] at hk
        exact absurd (h.mutex k i (by rw [hk]; rfl) hih) hki
    · intro v hv
      dsimp only at hv ⊢
      rcases List.mem_cons.mp hv with h1 | h1
      · exact h1 ▸ Nat.le_refl _
      · exact h.sig v h1
    · intro k
      dsimp only
      by_cases hki : k = i
      · have hc := h.cnt i
        rw [hid] at hc
        simp [WPC.sigDone] at hc
        rw [hki, Function.update_same, Function.update_same, hc]
        rfl
      · rw [Function.update_noteq hki, Function.update_noteq hki]
        exact h.cnt k
  | wRelease i hid =>
    have hih : (s.ws i).holds = true := by rw [hid]; rfl
    refine ⟨?_, ?_, h.p2, ?_, ?_, h.obs, h.sig, ?_⟩
    · intro a b ha hb
      dsimp only at ha hb
      by_cases hai : a = i
      · rw [hai, Function.update_same] at ha
        simp [WPC.holds] at ha
      · by_cases hbi : b = i
        · rw [hbi, Function.update_same] at hb
          simp [WPC.holds] at hb
        · rw [Function.update_noteq hai] at ha
          rw [Function.update_noteq hbi] at hb
          exact h.mutex a b ha hb
    · intro a ha j
      dsimp only at ha ⊢
      by_cases hai : a = i
      · rw [hai, Function.update_same] at ha
        simp [WPC.holds] at ha
      · rw [Function.update_noteq hai] at ha
        exact h.rw a ha j
    · intro hno
      refine h.p1idle fun k hk => ?_
      by_cases hki : k = i
      · rw [hki] at hk
        rw [hid] at hk
        cases hk
      · exact (hno k) (by dsimp only; rw [Function.update_noteq hki]; exact hk)
    · intro k hk
      dsimp only at hk
      by_cases hki : k = i
      · rw [hki, Function.update_same] at hk
        cases hk
      · rw [Function.update_noteq hki] at hk
        exact absurd (h.mutex k i (by rw [hk]; rfl) hih) hki
    · intro k
      dsimp only
      by_cases hki : k = i
      · have hc := h.cnt i
        rw [hid] at hc
        rw [hki, Function.update_same]
        simpa [WPC.sigDone] using hc
      · rw [Function.update_noteq hki]
        exact h.cnt k
  | rAcquire j hjr hw =>
    refine ⟨h.mutex, ?_, h.p2, ?_, ?_, ?_, h.sig, h.cnt⟩
    · intro a ha _
      exact absurd ha (by simp [hw a])
    · intro _
      refine h.p1idle fun k hk => ?_
      have hwk := hw k
      rw [hk] at hwk
      simp [WPC.holds] at hwk
    · intro k hk
      have hwk := hw k
      rw [show s.ws k = WPC.wrote1 from hk] at hwk
      simp [WPC.holds] at hwk
    · intro j2 a b hob
      dsimp only at hob ⊢
      by_cases hj : j2 = j
      · rw [hj, Function.update_same] at hob
        simp [RPC.obsOf] at hob
      · rw [Function.update_noteq hj] at hob
        exact h.obs j2 a b hob
  | rRead j hjr =>
    have hnw : ∀ i, ¬ (s.ws i).holds = true := fun i hb => by
      have hc := h.rw i hb j
      rw [hjr] at hc
      simp [RPC.held] at hc
    have hn1 : ∀ i, s.ws i ≠ WPC.wrote1 := fun i hk =>
      hnw i (by rw [hk]; rfl)
    have hp1 : s.part1 = s.committed := h.p1idle hn1
    refine ⟨h.mutex, ?_, h.p2, fun _ => hp1, ?_, ?_, h.sig, h.cnt⟩
    · intro a ha _
      exact absurd ha (hnw a)
    · intro k hk
      exact absurd hk (hn1 k)
    · intro j2 a b hob
      dsimp only at hob ⊢
      by_cases hj : j2 = j
      · rw [hj, Function.update_same] at hob
        simp [RPC.obsOf] at hob
        obtain ⟨h1, h2⟩ := hob
        have hp2 := h.p2
        refine ⟨by omega, by omega⟩
      · rw [Function.update_noteq hj] at hob
        exact h.obs j2 a b hob
  | rRelease j o hjr =>
    refine ⟨h.mutex, ?_, h.p2, h.p1idle, h.p1w, ?_, h.sig, h.cnt⟩
    · intro a ha j2
      have hc := h.rw a ha j
      rw [hjr] at hc
      simp [RPC.held] at hc
    · intro j2 a b hob
      dsimp only at hob ⊢
      by_cases hj : j2 = j
      · rw [hj, Function.update_same] at hob
        simp [RPC.obsOf] at hob
        refine h.obs j a b ?_
        rw [hjr]
        simp [RPC.obsOf, hob]
      · rw [Function.update_noteq hj] at hob
        exact h.obs j2 a b hob

theorem inv_reach {s : Sys} (h : Reach s) : Inv s := by
  induction h with
  | refl => exact inv_init
  | tail _ hstep ih => exact inv_step ih hstep

theorem step_committed_le {s t : Sys} (h : Step s t) :
    s.committed ≤ t.committed := by
  cases h <;> dsimp only <;> omega

theorem tracks_step {v j : Nat} {t u : Sys} (hinv : Inv t)
    (htr : tracksFrom v j t) (hst : Step t u) : tracksFrom v j u := by
  cases hst with
  | wAcquire i hid hw hr => exact htr
  | wWrite1 i hid => exact htr
  | wWrite2 i hid =>
    rcases htr with ⟨hpc, hle⟩ | ⟨a, b, hpc, hle⟩
    · exact Or.inl ⟨hpc, Nat.le_succ_of_le hle⟩
    · exact Or.inr ⟨a, b, hpc, hle⟩
  | wPublish i hid => exact htr
  | wRelease i hid => exact htr
  | rAcquire j2 hj2 hw =>
    by_cases hj : j = j2
    · rcases htr with ⟨_, hle⟩ | ⟨a, b, hpc, _⟩
      · refine Or.inl ⟨Or.inr ?_, hle⟩
        dsimp only
        rw [hj, Function.update_same]
      · exfalso
        rw [hj] at hpc
        rcases hpc with h1 | h1 <;> rw [hj2] at h1 <;> cases h1
    · have heq : (Function.update t.rs j2 (RPC.rheld none)) j = t.rs j :=
        Function.update_noteq hj _ _
      simp only [tracksFrom] at htr ⊢
      rw [heq]
      exact htr
  | rRead j2 hj2 =>
    by_cases hj : j = j2
    · have hnw : ∀ i, ¬ (t.ws i).holds = true := fun i hb => by
        have hc := hinv.rw i hb j2
        rw [hj2] at hc
        simp [RPC.held] at hc
      have hn1 : ∀ i, t.ws i ≠ WPC.wrote1 := fun i hk =>
        hnw i (by rw [hk]; rfl)
      have hp1 : t.part1 = t.committed := hinv.p1idle hn1
      rcases htr with ⟨_, hle⟩ | ⟨a, b, hpc, _⟩
      · refine Or.inr ⟨t.part1, t.part2, Or.inl ?_, ?_⟩
        · dsimp only
          rw [hj, Function.update_same]
        · rw [hp1]
          exact hle
      · exfalso
        rw [hj] at hpc
        rcases hpc with h1 | h1 <;> rw [hj2] at h1 <;> simp at h1
    · have heq : (Function.update t.rs j2
          (RPC.rheld (some (t.part1, t.part2)))) j = t.rs j :=
        Function.update_noteq hj _ _
      simp only [tracksFrom] at htr ⊢
      rw [heq]
      exact htr
  | rRelease j2 o hj2 =>
    by_cases hj : j = j2
    · rcases htr with ⟨hpc, _⟩ | ⟨a, b, hpc, hle⟩
      · exfalso
        rw [hj] at hpc
        rcases hpc with h1 | h1 <;> rw [hj2] at h1 <;> cases h1
      · rw [hj] at hpc
        rcases hpc with h1 | h1
        · rw [hj2] at h1
          simp only [RPC.rheld.injEq, Option.some.injEq] at h1
          refine Or.inr ⟨a, b, Or.inr ?_, hle⟩
          dsimp only
          rw [hj, Function.update_same, h1]
        · rw [hj2] at h1
          cases h1
    · have heq : (Function.update t.rs j2 (RPC.rdone o)) j = t.rs j :=
        Function.update_noteq hj _ _
      simp only [tracksFrom] at htr ⊢
      rw [heq]
      exact htr

theorem tracks_chain {s u : Sys} (hs : Reach s)
    (hchain : Relation.ReflTransGen Step s u) {v j : Nat}
    (htr : tracksFrom v j s) : tracksFrom v j u := by
  induction hchain with
  | refl => exact htr
  | tail hab hstep ih => exact tracks_step (inv_reach (hs.trans hab)) ih hstep

/-- A step that extends the signal log is a notifier send: it publishes
exactly the version committed at that moment, commits nothing itself, and
is taken by a writer task that holds the write lock before and after (the
guard is released only by the later `wRelease`). -/
theorem publish_shape {t u : Sys} (h : Step t u) (hne : u.sigLog ≠ t.sigLog) :
    u.sigLog = t.committed :: t.sigLog ∧ u.committed = t.committed ∧
    ∃ i, t.ws i = WPC.wrote2 ∧ u.ws i = WPC.signaled ∧
      (t.ws i).holds = true ∧ (u.ws i).holds = true := by
  cases h with
  | wPublish i hid =>
    refine ⟨rfl, rfl, i, hid, ?_, ?_, ?_⟩
    · dsimp only
      rw [Function.update_same]
    · rw [hid]; rfl
    · dsimp only
      rw [Function.update_same]
      rfl
  | wAcquire i hid hw hr => exact absurd rfl hne
  | wWrite1 i hid => exact absurd rfl hne
  | wWrite2 i hid => exact absurd rfl hne
  | wRelease i hid => exact absurd rfl hne
  | rAcquire j hjr hw => exact absurd rfl hne
  | rRead j hjr => exact absurd rfl hne
  | rRelease j o hjr => exact absurd rfl hne

theorem exStep01 : Step init ex1 :=
  Step.wAcquire init 0 rfl (fun _ => rfl) (fun _ => rfl)

theorem exStep12 : Step ex1 ex2 := Step.wWrite1 ex1 0 rfl

theorem exStep23 : Step ex2 ex3 := Step.wWrite2 ex2 0 rfl

theorem exStep34 : Step ex3 ex4 := Step.wPublish ex3 0 rfl

theorem exStep45 : Step ex4 ex5 := Step.wRelease ex4 0 rfl

theorem exStep56 : Step ex5 ex6 :=
  Step.rAcquire ex5 0 rfl (fun k => by
    by_cases hk : k = 0
    · subst hk; rfl
    · simp [ex5, ex4, ex3, ex2, ex1, init, Function.update_noteq hk,
        WPC.holds])

theorem exStep67 : Step ex6 ex7 := Step.rRead ex6 0 rfl

theorem exStep78 : Step ex7 ex8 :=
  Step.rRelease ex7 0 (ex6.part1, ex6.part2) rfl

theorem exReach4 : Reach ex4 :=
  (((Relation.ReflTransGen.refl.tail exStep01).tail exStep12).tail
    exStep23).tail exStep34

theorem exChain48 : Relation.ReflTransGen Step ex4 ex8 :=
  (((Relation.ReflTransGen.refl.tail exStep45).tail exStep56).tail
    exStep67).tail exStep78

/-- C1: in every reachable state, each writer task (one successful
re-render) has published exactly one ChangeSignal once it has completed
its publish step and none before (first conjunct); every step that
publishes a signal publishes exactly the version just committed, commits
nothing itself, and is taken by a task holding exclusive write access both
before and after the send (second conjunct, Invariant I2's emission
order); and any fetch (reader cycle) that starts after a version `v` has
been published observes an artifact at least as new as `v` (third and
fourth conjuncts). -/
theorem cache_publish_after_commit (s u : Sys) (hs : Reach s)
    (hchain : Relation.ReflTransGen Step s u) (v j a b : Nat)
    (hv : v ∈ s.sigLog) (hidle : s.rs j = RPC.ridle)
    (hdone : u.rs j = RPC.rdone (a, b)) :
    (∀ i, s.sigCount i = if (s.ws i).sigDone = true then 1 else 0) ∧
    (∀ t t2 : Sys, Step t t2 → t2.sigLog ≠ t.sigLog →
      t2.sigLog = t.committed :: t.sigLog ∧ t2.committed = t.committed ∧
      ∃ i, t.ws i = WPC.wrote2 ∧ t2.ws i = WPC.signaled ∧
        (t.ws i).holds = true ∧ (t2.ws i).holds = true) ∧
    v ≤ a ∧ a = b := by
  have hi := inv_reach hs
  have hiu := inv_reach (hs.trans hchain)
  have htr0 : tracksFrom v j s := Or.inl ⟨Or.inl hidle, hi.sig v hv⟩
  have htr := tracks_chain hs hchain htr0
  refine ⟨hi.cnt, fun t t2 h hne => publish_shape h hne, ?_, ?_⟩
  · rcases htr with ⟨hpc, _⟩ | ⟨a2, b2, hpc, hle⟩
    · exfalso
      rcases hpc with h1 | h1 <;> rw [hdone] at h1 <;> cases h1
    · rcases hpc with h1 | h1
      · rw [hdone] at h1
        cases h1
      · rw [hdone] at h1
        simp only [RPC.rdone.injEq, Prod.mk.injEq] at h1
        omega
  · exact (hiu.obs j a b (by rw [hdone]; rfl)).1

/-- Witness for C1 at the concrete execution: writer 0 commits version 1
and publishes it, then reader 0 fetches and observes (1, 1). -/
theorem cache_publish_after_commit_witness :
    (∀ i, ex4.sigCount i = if (ex4.ws i).sigDone = true then 1 else 0) ∧
    (∀ t t2 : Sys, Step t t2 → t2.sigLog ≠ t.sigLog →
      t2.sigLog = t.committed :: t.sigLog ∧ t2.committed = t.committed ∧
      ∃ i, t.ws i = WPC.wrote2 ∧ t2.ws i = WPC.signaled ∧
        (t.ws i).holds = true ∧ (t2.ws i).holds = true) ∧
    1 ≤ 1 ∧ 1 = 1 :=
  cache_publish_after_commit ex4 ex8 exReach4 exChain48 1 0 1 1
    (by decide) rfl rfl

/-- C2: in every reachable state of the cache protocol, at most one writer
task holds the write lock (Invariant I1), and every value a reader has
observed is untorn — both words carry one and the same committed version,
never a mixture of two updates — and is a version that was fully committed
by read time. -/
theorem cache_read_atomic (s : Sys) (hs : Reach s) :
    (∀ i k, (s.ws i).holds = true → (s.ws k).holds = true → i = k) ∧
    (∀ j a b, (s.rs j).obsOf = some (a, b) → a = b ∧ a ≤ s.committed) := by
  have hi := inv_reach hs
  exact ⟨hi.mutex, hi.obs⟩

/-- Witness for C2 at the concrete execution state in which reader 0 has
completed a fetch concurrent-free observation (1, 1). -/
theorem cache_read_atomic_witness :
    (∀ i k, (ex8.ws i).holds = true → (ex8.ws k).holds = true → i = k) ∧
    (∀ j a b, (ex8.rs j).obsOf = some (a, b) → a = b ∧ a ≤ ex8.committed) :=
  cache_read_atomic ex8 (exReach4.trans exChain48)

/-! ## Functional claims about the watcher, the handlers and the stream -/

/-- C5: when a detected modification's file read fails, the cycle logs the
error ("File changed..." is printed before the read attempt, then the read
error), keeps the previous artifact, publishes no ChangeSignal, and the
loop goes on: the final artifact and the signal count over the remaining
schedule are exactly those of the schedule without the failing cycle, and
the next successful modification event re-renders as usual. -/
theorem read_error_skips_cycle (render : String → String) (st md e : String)
    (cs : List (Except String FsEventKind × Except String String)) :
    watchCycle render st (.ok .modify) (.error e) =
      (st, false, ["File changed, updating content...",
                   "Error reading file: " ++ e]) ∧
    (watchLoop render st ((Except.ok FsEventKind.modify,
        Except.error e) :: cs)).1 = (watchLoop render st cs).1 ∧
    (watchLoop render st ((Except.ok FsEventKind.modify,
        Except.error e) :: cs)).2.1 = (watchLoop render st cs).2.1 ∧
    watchCycle render st (.ok .modify) (.ok md) =
      (render md, true, ["File changed, updating content..."]) := by
  refine ⟨rfl, ?_, ?_, rfl⟩ <;> simp [watchLoop, watchCycle]

/-- C6: under `--clipboard`, `run_server_mode` stores the sentinel path
"Clipboard" in the state, and `watch_markdown_file` returns at once for
every environment: the artifact stays at the initial render, no
ChangeSignal is ever published and nothing is logged for the whole process
lifetime. -/
theorem clipboard_disables_watch (render : String → String)
    (clip style : String) (fonts : Fonts)
    (readFile : String → Except String String) (env : WatchEnv) :
    ∃ st, runServerModeInit render true clip none readFile style fonts =
        Except.ok st ∧
      st.filePath = "Clipboard" ∧
      watchMarkdownFile render st.filePath st.htmlContent env =
        WatchResult.returned st.htmlContent 0 [] := by
  refine ⟨_, rfl, rfl, ?_⟩
  simp [watchMarkdownFile]

/-- C7: server-mode initialization renders the input before the state (and
hence the server) exists, so the stored artifact is the rendered input;
and `serve_html` succeeds on every state, answering with the current
artifact wrapped in the page template — it has no error path. -/
theorem serve_always_succeeds (render : String → String)
    (readFile : String → Except String String) (p md style : String)
    (fonts : Fonts) (h : readFile p = Except.ok md) :
    ∃ st, runServerModeInit render false "" (some p) readFile style fonts =
        Except.ok st ∧
      st.htmlContent = render md ∧
      (∀ s : AppState, serveHtml s = Except.ok
        (buildFullHtml s.fileName s.htmlContent s.cssContent s.fonts
          true)) := by
  refine ⟨{ htmlContent := render md, cssContent := style, fonts := fonts,
            filePath := p, fileName := fileNameOf p }, ?_, rfl, fun s => rfl⟩
  simp [runServerModeInit, h]

/-- Witness for C7 at a concrete file and reader. -/
theorem serve_always_succeeds_witness :
    ∃ st, runServerModeInit (fun s => s) false "" (some "doc.md")
        (fun _ => Except.ok "# Hello") "css" sampleFonts = Except.ok st ∧
      st.htmlContent = "# Hello" ∧
      (∀ s : AppState, serveHtml s = Except.ok
        (buildFullHtml s.fileName s.htmlContent s.cssContent s.fonts
          true)) :=
  serve_always_succeeds (fun s => s) (fun _ => Except.ok "# Hello")
    "doc.md" "# Hello" "css" sampleFonts rfl

/-- C9: the renderer is deterministic — any two invocations of
`render_markdown_to_html` on the same source text (with the same parser
and HTML-pusher collaborators) yield byte-identical output; the embedded
function reads no state besides its arguments, so the two results coincide
definitionally. -/
theorem render_deterministic (parse : String → List MdEvent)
    (pushHtml : List MdEvent → String) (md : String) :
    renderMarkdownToHtml parse pushHtml md =
      renderMarkdownToHtml parse pushHtml md := rfl

/-- C10: the non-file sentinel is just the path string "Clipboard": a
server-mode invocation on a real file named "Clipboard" stores that path,
and `watch_markdown_file` treats it as the sentinel and returns at once —
even for an environment whose schedule contains successful modification
events, the artifact never changes and no signal is published. -/
theorem clipboard_named_file_ignored (render : String → String)
    (md style : String) (fonts : Fonts)
    (readFile : String → Except String String) (env : WatchEnv)
    (st0 : String) (h : readFile "Clipboard" = Except.ok md) :
    ∃ st, runServerModeInit render false "" (some "Clipboard") readFile
        style fonts = Except.ok st ∧
      st.filePath = "Clipboard" ∧ st.htmlContent = render md ∧
      watchMarkdownFile render st.filePath st0 env =
        WatchResult.returned st0 0 [] := by
  refine ⟨{ htmlContent := render md, cssContent := style, fonts := fonts,
            filePath := "Clipboard", fileName := fileNameOf "Clipboard" },
          ?_, rfl, rfl, ?_⟩
  · simp [runServerModeInit, h]
  · simp [watchMarkdownFile]

/-- Witness for C10: the watched "file" is edited (a successful modify
cycle is scheduled) yet the artifact stays at the initial render. -/
theorem clipboard_named_file_ignored_witness :
    ∃ st, runServerModeInit (fun s => s) false "" (some "Clipboard")
        (fun _ => Except.ok "# original") "css" sampleFonts =
        Except.ok st ∧
      st.filePath = "Clipboard" ∧ st.htmlContent = "# original" ∧
      watchMarkdownFile (fun s => s) st.filePath "# original"
        { watcherNew := Except.ok (), watchReg := Except.ok (),
          cycles := [(Except.ok FsEventKind.modify,
                      Except.ok "# edited")] } =
        WatchResult.returned "# original" 0 [] :=
  clipboard_named_file_ignored (fun s => s) "# original" "css" sampleFonts
    (fun _ => Except.ok "# original")
    { watcherNew := Except.ok (), watchReg := Except.ok (),
      cycles := [(Except.ok FsEventKind.modify, Except.ok "# edited")] }
    "# original" rfl

/-- C4 (amended): errors delivered on the watch event channel during
operation are logged ("watch error: ...") without terminating the loop or
the process — the artifact and the signal count are unaffected and later
cycles still run; but an error from constructing the watcher (or, likewise,
from registering the watch) hits an `unwrap()` and panics the watcher task
without logging through the error path and without any fallback. -/
theorem watch_errors_logged_or_panic (render : String → String)
    (st st0 path e msg msg2 : String) (rd : Except String String)
    (cs : List (Except String FsEventKind × Except String String))
    (env envReg : WatchEnv) (hpath : path ≠ "Clipboard")
    (hfail : env.watcherNew = Except.error msg)
    (hok : envReg.watcherNew = Except.ok ())
    (hregfail : envReg.watchReg = Except.error msg2) :
    watchCycle render st (.error e) rd =
      (st, false, ["watch error: " ++ e]) ∧
    (watchLoop render st ((Except.error e, rd) :: cs)).1 =
      (watchLoop render st cs).1 ∧
    (watchLoop render st ((Except.error e, rd) :: cs)).2.1 =
      (watchLoop render st cs).2.1 ∧
    watchMarkdownFile render path st0 env = WatchResult.panicked ∧
    watchMarkdownFile render path st0 envReg = WatchResult.panicked := by
  refine ⟨rfl, ?_, ?_, ?_, ?_⟩
  · simp [watchLoop, watchCycle]
  · simp [watchLoop, watchCycle]
  · simp [watchMarkdownFile, hpath, hfail]
  · simp [watchMarkdownFile, hpath, hok, hregfail]

/-- Witness for C4's amended statement at concrete inputs, covering both
the watcher-creation and the watch-registration failure. -/
theorem watch_errors_logged_or_panic_witness :
    watchCycle (fun s => s) "cur" (.error "event dropped")
        (Except.ok "x") = ("cur", false, ["watch error: event dropped"]) ∧
    (watchLoop (fun s => s) "cur" [(Except.error "event dropped",
        Except.ok "x")]).1 = (watchLoop (fun s => s) "cur" []).1 ∧
    (watchLoop (fun s => s) "cur" [(Except.error "event dropped",
        Except.ok "x")]).2.1 = (watchLoop (fun s => s) "cur" []).2.1 ∧
    watchMarkdownFile (fun s => s) "doc.md" "init"
      { watcherNew := Except.error "inotify limit", watchReg := Except.ok (),
        cycles := [] } = WatchResult.panicked ∧
    watchMarkdownFile (fun s => s) "doc.md" "init"
      { watcherNew := Except.ok (),
        watchReg := Except.error "watch target unavailable",
        cycles := [] } = WatchResult.panicked :=
  watch_errors_logged_or_panic (fun s => s) "cur" "init" "doc.md"
    "event dropped" "inotify limit" "watch target unavailable"
    (Except.ok "x") []
    { watcherNew := Except.error "inotify limit", watchReg := Except.ok (),
      cycles := [] }
    { watcherNew := Except.ok (),
      watchReg := Except.error "watch target unavailable", cycles := [] }
    (by decide) rfl rfl rfl

/-- C4 counterexample: a failure to create the OS watcher, and likewise a
failure to register the watch on the target path, is consumed by
`unwrap()` — `watch_markdown_file` panics instead of logging the error and
degrading to polling. -/
theorem watch_setup_panic_cex :
    watchMarkdownFile (fun s => s) "doc.md" "init"
      { watcherNew := Except.error "inotify watch limit reached",
        watchReg := Except.ok (), cycles := [] } =
      WatchResult.panicked ∧
    watchMarkdownFile (fun s => s) "doc.md" "init"
      { watcherNew := Except.ok (),
        watchReg := Except.error "watch target unavailable",
        cycles := [] } =
      WatchResult.panicked := by
  constructor <;> simp [watchMarkdownFile]


theorem eventStream_replicate (recvs : List (Except RecvErr Unit)) :
    eventStream recvs =
      List.replicate (okPrefixLen recvs) (SseItem.dataEvent "reload") := by
  induction recvs with
  | nil => rfl
  | cons r rest ih =>
    cases r with
    | ok u => simp [eventStream, okPrefixLen, ih, List.replicate_succ]
    | error e => rfl

theorem countP_triggers_filter (w : List SseItem) :
    w.countP triggersReload =
      (w.filter SseItem.isData).countP triggersReload := by
  induction w with
  | nil => rfl
  | cons x xs ih =>
    cases x with
    | dataEvent d =>
      simp [List.countP_cons, List.filter_cons, SseItem.isData, ih]
    | comment c =>
      simp [List.countP_cons, List.filter_cons, SseItem.isData,
        triggersReload, ih]

theorem countP_replicate_reload (n : Nat) :
    (List.replicate n (SseItem.dataEvent "reload")).countP
      triggersReload = n := by
  induction n with
  | zero => rfl
  | succ n ih =>
    simp [List.replicate_succ, List.countP_cons, ih, triggersReload]

/-- C8: the event stream emits exactly one data event per received
ChangeSignal, and its data is always the literal token "reload"; on any
wire interleaving of that stream with keep-alive comments, the client
script fires exactly once per received signal, and no comment ever
triggers a reload. -/
theorem sse_one_reload_per_signal (recvs : List (Except RecvErr Unit))
    (wire : List SseItem)
    (hw : wire.filter SseItem.isData = eventStream recvs) :
    eventStream recvs =
      List.replicate (okPrefixLen recvs) (SseItem.dataEvent "reload") ∧
    wire.countP triggersReload = okPrefixLen recvs ∧
    (∀ c, triggersReload (SseItem.comment c) = false) := by
  refine ⟨eventStream_replicate recvs, ?_, fun c => rfl⟩
  rw [countP_triggers_filter, hw, eventStream_replicate]
  exact countP_replicate_reload _

/-- Witness for C8: two received signals on a wire with interleaved
keep-alive comments trigger exactly two reloads. -/
theorem sse_one_reload_per_signal_witness :
    eventStream [Except.ok (), Except.ok ()] =
      List.replicate (okPrefixLen
        ([Except.ok (), Except.ok ()] : List (Except RecvErr Unit)))
        (SseItem.dataEvent "reload") ∧
    ([SseItem.comment "ping", SseItem.dataEvent "reload",
      SseItem.comment "ping", SseItem.dataEvent "reload"].countP
        triggersReload) =
      okPrefixLen ([Except.ok (), Except.ok ()] :
        List (Except RecvErr Unit)) ∧
    (∀ c, triggersReload (SseItem.comment c) = false) :=
  sse_one_reload_per_signal [Except.ok (), Except.ok ()]
    [SseItem.comment "ping", SseItem.dataEvent "reload",
     SseItem.comment "ping", SseItem.dataEvent "reload"] (by decide)

theorem eventLoopBurst_drain (P : Nat) :
    ∀ fuel c, P - c ≤ capacity → P - c ≤ fuel →
      eventLoopBurst P fuel c =
        List.replicate (P - c) (SseItem.dataEvent "reload") := by
  intro fuel
  induction fuel with
  | zero =>
    intro c h1 h2
    have h0 : P - c = 0 := Nat.le_zero.mp h2
    rw [h0]
    rfl
  | succ fuel ih =>
    intro c h1 h2
    by_cases hc : c < P
    · have hrecv : recvBurst P c = Except.ok (c + 1) := by
        simp only [recvBurst]
        rw [if_neg (by omega : ¬ capacity < P - c)]
      simp only [eventLoopBurst, if_pos hc, hrecv]
      rw [ih (c + 1) (by omega) (by omega)]
      have hsub : P - c = (P - (c + 1)) + 1 := by omega
      rw [hsub, List.replicate_succ]
    · have h0 : P - c = 0 := by omega
      simp only [eventLoopBurst, if_neg hc]
      rw [h0]
      rfl

theorem eventLoopBurst_overflow (fuel : Nat) :
    eventLoopBurst (capacity + 1) fuel 0 = [] := by
  cases fuel with
  | zero => rfl
  | succ fuel =>
    have h0 : (0 : Nat) < capacity + 1 := by omega
    have hlag : capacity < capacity + 1 - 0 := by omega
    simp only [eventLoopBurst, if_pos h0, recvBurst, if_pos hlag]

/-- C3 (amended): for a burst of at most 100 publishes (the channel
capacity chosen in `run_server_mode`), a subscriber that polls afterwards
drains one "reload" event per publish, so in particular after 50 rapid
publishes it reloads and its subsequent fetch — `serve_html`, which always
answers with the current artifact — returns the artifact of the 50th
(latest) update (first and fourth conjuncts).  When a publish finds the
mailbox full, exactly the one oldest signal is dropped for that
subscription (second conjunct); but the receiver then observes a Lagged
error at its next poll and the `while let Ok` stream loop terminates, so
after an overflow the stream delivers no reload event at all instead of
staying live (third conjunct). -/
theorem slow_subscriber_drain (P fuel : Nat) (hP : P ≤ capacity)
    (hfuel : P ≤ fuel) :
    eventLoopBurst P fuel 0 =
      List.replicate P (SseItem.dataEvent "reload") ∧
    (∀ c, recvBurst (c + capacity + 1) c = Except.error 1) ∧
    (∀ fl, eventLoopBurst (capacity + 1) fl 0 = []) ∧
    (∀ s : AppState, serveHtml s = Except.ok
      (buildFullHtml s.fileName s.htmlContent s.cssContent s.fonts
        true)) := by
  refine ⟨?_, ?_, eventLoopBurst_overflow, fun s => rfl⟩
  · have h := eventLoopBurst_drain P fuel 0 (by omega) (by omega)
    simpa using h
  · intro c
    have h1 : capacity < c + capacity + 1 - c := by omega
    simp only [recvBurst]
    rw [if_pos h1]
    congr 1
    omega

/-- Witness for C3's amended statement at the 50-publish burst of
Scenario E. -/
theorem slow_subscriber_drain_witness :
    eventLoopBurst 50 50 0 =
      List.replicate 50 (SseItem.dataEvent "reload") ∧
    (∀ c, recvBurst (c + capacity + 1) c = Except.error 1) ∧
    (∀ fl, eventLoopBurst (capacity + 1) fl 0 = []) ∧
    (∀ s : AppState, serveHtml s = Except.ok
      (buildFullHtml s.fileName s.htmlContent s.cssContent s.fonts
        true)) :=
  slow_subscriber_drain 50 50 (by decide) (by decide)

/-- C3 counterexample: 101 rapid publishes before a subscriber that never
polled overflow the capacity-100 mailbox; on polling, the very first
receive reports Lagged, the `while let Ok` loop exits, and the stream
yields zero reload events — the subscription does not stay live and never
re-fetches, contrary to the claim. -/
theorem overflow_closes_stream_cex :
    capacity < 101 ∧ eventLoopBurst 101 101 0 = [] := by
  refine ⟨by decide, ?_⟩
  exact eventLoopBurst_overflow 101


end Omd
